import Mathlib

/-!
Verification development for the writing-agent backend.

The definitions below are a shallow embedding of the Python sources
`src/backend/agent.py` and `src/backend/main.py` (the LangGraph agent loop,
the text-analysis tools, the streaming generators and the SSE framing layer).
Pure Python string operations are translated to executable Lean functions on
`String`/`List Char`; character classification (`isalnum`, whitespace,
`lower`) is modelled on the ASCII range plus the common Python whitespace
code points, which covers every input the claims mention.
-/

/-- Whitespace in the sense of Python `str.split()` / `str.strip()`
(ASCII whitespace plus the extra code points Python treats as space). -/
def isPySpace (c : Char) : Bool :=
  c = ' ' || c = '\t' || c = '\n' || c = '\r' || c = '\x0b' || c = '\x0c' ||
  c = '\x1c' || c = '\x1d' || c = '\x1e' || c = '\x1f' || c = '\x85' || c = '\xa0'

/-- Worker for Python `str.split()` with no argument: maximal runs of
non-whitespace characters, empty pieces discarded.  `acc` holds the
current in-progress word, reversed. -/
def wordsAux : List Char → List Char → List String
  | [], acc => if acc.isEmpty then [] else [String.mk acc.reverse]
  | c :: cs, acc =>
    if isPySpace c then
      if acc.isEmpty then wordsAux cs [] else String.mk acc.reverse :: wordsAux cs []
    else wordsAux cs (c :: acc)

/-- Python `text.split()` (split on whitespace, dropping empty tokens). -/
def pySplitWs (s : String) : List String := wordsAux s.toList []

/-- Python `not text.strip()`: the string has no non-whitespace character. -/
def textAllWhitespace (s : String) : Bool := s.toList.all isPySpace

/-- Python `text.lower()` (ASCII range). -/
def pyLower (s : String) : String := String.mk (s.toList.map Char.toLower)

/-- Worker for Python `text.split(one newline)`: split at every newline,
keeping empty pieces. -/
def splitNLAux : List Char → List Char → List String
  | '\n' :: cs, acc => String.mk acc.reverse :: splitNLAux cs []
  | c :: cs, acc => splitNLAux cs (c :: acc)
  | [], acc => [String.mk acc.reverse]

/-- Python `text.split(one newline)`. -/
def pySplitNL (s : String) : List String := splitNLAux s.toList []

/-- Worker for Python `text.split(two newlines)`: split at every
non-overlapping occurrence of a double newline, left to right, keeping
empty pieces. -/
def splitNNAux : List Char → List Char → List String
  | '\n' :: '\n' :: cs, acc => String.mk acc.reverse :: splitNNAux cs []
  | c :: cs, acc => splitNNAux cs (c :: acc)
  | [], acc => [String.mk acc.reverse]

/-- Python `text.split(two newlines)`. -/
def pySplitNN (s : String) : List String := splitNNAux s.toList []

/-- Python `''.join(c for c in word if c.isalnum())` (ASCII range). -/
def cleanWord (w : String) : String := String.mk (w.toList.filter Char.isAlphanum)

/-- A single-quote character, used by the Python `str(list)` rendering. -/
def singleQuote : String := String.singleton (Char.ofNat 39)

/-- Python `str(l)` for a list of strings without special characters:
each element in single quotes, comma-space separated, in brackets. -/
def pyReprStrList (l : List String) : String :=
  "[" ++ String.intercalate ", " (l.map (fun s => singleQuote ++ s ++ singleQuote)) ++ "]"

/-- The `common_words` stop-word set of `extract_key_themes`
(agent.py line 98). -/
def commonWords : List String :=
  ["the", "and", "or", "but", "in", "on", "at", "to", "for", "of", "with",
   "by", "a", "an", "is", "are", "was", "were", "be", "been", "have", "has",
   "had", "do", "does", "did", "will", "would", "could", "should", "may",
   "might", "can", "this", "that", "these", "those"]

/-- One step of the Python dict-based frequency count
`word_freq[w] = word_freq.get(w, 0) + 1`: a new key is appended at the end
(Python dicts preserve insertion order), an existing key keeps its place. -/
def bumpFreq : List (String × Nat) → String → List (String × Nat)
  | [], w => [(w, 1)]
  | (k, v) :: rest, w =>
    if k = w then (k, v + 1) :: rest else (k, v) :: bumpFreq rest w

/-- The loop body of the frequency count (agent.py lines 100-103): the
cleaned word is counted only when longer than 3 characters and not a
stop word. -/
def freqStep (acc : List (String × Nat)) (word : String) : List (String × Nat) :=
  let clean := cleanWord word
  if 3 < clean.length && !(commonWords.contains clean) then bumpFreq acc clean
  else acc

/-- The `word_freq` dict built by `extract_key_themes` (agent.py lines 94-103),
as an association list in key-insertion (= first-occurrence) order. -/
def wordFreq (text : String) : List (String × Nat) :=
  (pySplitWs (pyLower text)).foldl freqStep []

/-- Insert one entry into a list sorted by strictly greater count first;
the new entry goes before existing entries of equal count, which together
with right-to-left insertion makes the sort stable. -/
def insertByCountDesc (x : String × Nat) : List (String × Nat) → List (String × Nat)
  | [] => [x]
  | y :: ys => if y.2 > x.2 then y :: insertByCountDesc x ys else x :: y :: ys

/-- Python `sorted(items, key=lambda x: x[1], reverse=True)`: a stable sort
by descending count.  Python sorted is stable; stable insertion sort is its
extensional equal. -/
def sortByCountDesc (l : List (String × Nat)) : List (String × Nat) :=
  l.foldr insertByCountDesc []

/-- `top_themes` of `extract_key_themes` (agent.py line 106). -/
def topThemes (text : String) : List (String × Nat) :=
  (sortByCountDesc (wordFreq text)).take 5

/-- `extract_key_themes` tool (agent.py lines 87-108). -/
def extract_key_themes (text : String) : String :=
  if textAllWhitespace text then "No themes found in empty text"
  else "Key themes identified: " ++ pyReprStrList ((topThemes text).map Prod.fst)

/-- The paragraph list of `analyze_text_structure`
(`[p for p in text.split(two newlines) if p.strip()]`, agent.py line 41). -/
def paragraphsOf (text : String) : List String :=
  (pySplitNN text).filter (fun p => p.toList.any (fun c => !isPySpace c))

/-- Python `json.dumps(analysis, indent=2)` for the fixed-shape analysis
dict of `analyze_text_structure` (keys in insertion order). -/
def jsonAnalysis (words chars lineCount paraCount : Nat) (struct : String) : String :=
  "\x7b\n  \"word_count\": " ++ toString words ++
  ",\n  \"character_count\": " ++ toString chars ++
  ",\n  \"line_count\": " ++ toString lineCount ++
  ",\n  \"paragraph_count\": " ++ toString paraCount ++
  ",\n  \"structure\": \"" ++ struct ++ "\"\n\x7d"

/-- `analyze_text_structure` tool (agent.py lines 34-53). -/
def analyze_text_structure (text : String) : String :=
  if textAllWhitespace text then "Empty text provided"
  else
    let lines := pySplitNL text
    let paragraphs := paragraphsOf text
    let words := (pySplitWs text).length
    let chars := text.length
    "Text Analysis: " ++
      jsonAnalysis words chars lines.length paragraphs.length
        (if 1 < paragraphs.length then "multi-paragraph" else "single-block")

/-- `suggest_improvements` tool (agent.py lines 55-85); the Python default
for `focus` is "general", supplied by callers here. -/
def suggest_improvements (text : String) (focus : String) : String :=
  let _ := text
  let suggestions : List String :=
    if focus = "clarity" then
      ["Consider breaking long sentences into shorter ones",
       "Use active voice where possible",
       "Replace complex words with simpler alternatives"]
    else if focus = "structure" then
      ["Add clear topic sentences to paragraphs",
       "Use transitional phrases between ideas",
       "Consider reorganizing for logical flow"]
    else if focus = "engagement" then
      ["Add compelling examples or anecdotes",
       "Use questions to engage readers",
       "Vary sentence length and structure"]
    else
      ["Check for grammar and spelling errors",
       "Ensure consistent tone throughout",
       "Remove unnecessary words and phrases"]
  "Improvement suggestions for " ++ focus ++ ": " ++ String.intercalate "; " suggestions

example : pySplitWs "Hello world" = ["Hello", "world"] := by decide
example : extract_key_themes "" = "No themes found in empty text" := by decide
example : (topThemes "alpha alpha beta").map Prod.fst = ["alpha", "beta"] := by decide
example : paragraphsOf "a\n\nb" = ["a", "b"] := by decide

/-! ## The agent loop (agent.py, class WritingAgent) -/

/-- A tool-call request attached to a model response
(`messages[-1].tool_calls` entries). -/
structure ToolCall where
  name : String
  args : List (String × String)
deriving DecidableEq

/-- A conversation entry (`langchain_core.messages`): system, human,
assistant (with its `tool_calls` list) or tool-result message.  Only
assistant messages carry a `tool_calls` attribute. -/
inductive Message where
  | system (content : String)
  | human (content : String)
  | ai (content : String) (tool_calls : List ToolCall)
  | toolResult (content : String)
deriving DecidableEq

/-- The `WritingState` TypedDict (agent.py lines 25-31).  The `messages`
annotation is a documentation string, not a reducer, so LangGraph uses a
last-value channel: a node's returned `messages` list replaces the field. -/
structure WritingState where
  messages : List Message
  content : String
  context : List (String × String)
  action : String
  iterations : Nat
  max_iterations : Nat
deriving DecidableEq

/-- Python `context.get(key)` followed by a truthiness test: yields the
value only when the key is present with a non-empty value. -/
def ctxTruthy (ctx : List (String × String)) (key : String) : Option String :=
  match ctx.lookup key with
  | some v => if v = "" then none else some v
  | none => none

/-- First sentence of the `generate` system prompt (agent.py line 182);
the remaining instruction prose is elided as irrelevant to the claims,
which only concern which template is selected. -/
def generateSystemPrompt : String :=
  "You are an expert writing assistant. When asked to generate text, provide ONLY the clean, well-written content that should be inserted directly into the document."

/-- First sentence of the `edit` system prompt (agent.py line 202);
remaining prose elided. -/
def editSystemPrompt : String :=
  "You are an expert editor. Help users improve and refine their existing text."

/-- First sentence of the `improve` system prompt (agent.py line 211);
remaining prose elided. -/
def improveSystemPrompt : String :=
  "You are an expert writing improvement specialist. When asked to improve text, provide ONLY the improved version of the content that should replace the original text in the document."

/-- The `system_prompts` dict of `agent_node` (agent.py lines 181-231),
in insertion order. -/
def system_prompts : List (String × String) :=
  [("generate", generateSystemPrompt),
   ("edit", editSystemPrompt),
   ("improve", improveSystemPrompt)]

/-- `system_prompts.get(action, system_prompts["generate"])`
(agent.py line 233). -/
def systemPromptFor (action : String) : String :=
  (system_prompts.lookup action).getD generateSystemPrompt

/-- The initial user message built from action, content and context
(agent.py lines 236-250).  Note the branch structure of the source:
`generate` and `edit` are tested explicitly and every other action falls
into the final `else` branch, which is the `improve` template. -/
def initialUserMessage (action content : String) (ctx : List (String × String)) : String :=
  if action = "generate" then
    let base := "Please help me generate text based on this prompt: " ++ content
    let base :=
      match ctxTruthy ctx "style" with
      | some v => base ++ "\n\n**Style:** " ++ v
      | none => base
    match ctxTruthy ctx "length" with
    | some v => base ++ "\n**Length:** " ++ v
    | none => base
  else if action = "edit" then
    let base := "Please help me edit and improve this text:\n\n" ++ content
    match ctxTruthy ctx "focus" with
    | some v => base ++ "\n\n**Focus on:** " ++ v
    | none => base
  else
    let base := "Please help me improve this text:\n\n" ++ content
    match ctxTruthy ctx "aspect" with
    | some v => base ++ "\n\n**Specific aspect:** " ++ v
    | none => base

/-- The message list `agent_node` works with after its seeding step
(agent.py lines 236-255): if the state has no messages yet, the system and
user messages are created; otherwise the existing list is used. -/
def seedMessages (s : WritingState) : List Message :=
  if s.messages.isEmpty then
    [Message.system (systemPromptFor s.action),
     Message.human (initialUserMessage s.action s.content s.context)]
  else s.messages

/-- Outcome of one model invocation: either an assistant message
(content plus tool-call requests) or a raised exception carrying its
string rendering. -/
inductive ModelResult where
  | success (content : String) (tool_calls : List ToolCall)
  | failure (err : String)

/-- The model gateway abstracted over: `self.llm.ainvoke(messages)`
together with the offline mock branch, as a function of the message
transcript. -/
def Gateway : Type := List Message → ModelResult

/-- The assistant entry `agent_node` appends: on success the model
response, on an exception the synthetic error message
`AIMessage(content=f"I encountered an error: ...")` (agent.py line 291),
which carries no tool calls. -/
def respondedMessage : ModelResult → Message
  | .success c tcs => .ai c tcs
  | .failure e => .ai ("I encountered an error: " ++ e) []

/-- `WritingAgent.agent_node` (agent.py lines 170-295): seed the messages
if absent, invoke the model, append the returned (or synthetic error)
assistant entry and increment `iterations` — in both branches the node
returns normally and increments exactly once. -/
def agent_node (gw : Gateway) (s : WritingState) : WritingState :=
  let msgs := seedMessages s
  { s with
    messages := msgs ++ [respondedMessage (gw msgs)],
    iterations := s.iterations + 1 }

/-- First sentence of the mock response for each action
(agent.py lines 263-279); the remaining canned prose is elided.  The
mock branch never requests tool calls. -/
def mockResponse (action : String) : String :=
  if action = "generate" then
    "This is a well-crafted piece of writing that demonstrates the capabilities of the AI writing assistant."
  else if action = "improve" then
    "This represents a significantly enhanced version of your original text, featuring improved clarity, better flow, and more engaging language throughout."
  else
    "**Mock Response for " ++ action ++ "**"

/-- The offline gateway used when no API key is configured: a canned
assistant message selected by the action, with no tool calls. -/
def mockGateway (action : String) : Gateway :=
  fun _ => .success (mockResponse action) []

/-- Python `messages and hasattr(messages[-1], 'tool_calls') and
messages[-1].tool_calls` (agent.py line 308): only assistant messages
carry the attribute, and the list must be non-empty. -/
def lastHasToolCalls (msgs : List Message) : Bool :=
  match msgs.getLast? with
  | some (.ai _ tcs) => !tcs.isEmpty
  | _ => false

/-- `WritingAgent.should_continue` (agent.py lines 297-311). -/
def should_continue (s : WritingState) : String :=
  if s.iterations ≥ s.max_iterations then "end"
  else if lastHasToolCalls s.messages then "continue"
  else "end"

/-- Dispatch of one tool call by the prebuilt `ToolNode` over the `tools`
list (agent.py line 111): look the tool up by name, call it with its
arguments (Python fills the `focus` default), and degrade an unknown tool
name to the descriptive library error string rather than raising. -/
def runTool (tc : ToolCall) : String :=
  let text := (tc.args.lookup "text").getD ""
  if tc.name = "analyze_text_structure" then analyze_text_structure text
  else if tc.name = "suggest_improvements" then
    suggest_improvements text ((tc.args.lookup "focus").getD "general")
  else if tc.name = "extract_key_themes" then extract_key_themes text
  else
    "Error: " ++ tc.name ++
      " is not a valid tool, try one of [analyze_text_structure, suggest_improvements, extract_key_themes]."

/-- The `tools` node (`ToolNode(tools)`, agent.py line 139): one
tool-result message per requested call of the last assistant message, in
request order.  Because the `messages` channel of `WritingState` has no
reducer, the returned list replaces the previous transcript. -/
def tools_node (s : WritingState) : WritingState :=
  let calls :=
    match s.messages.getLast? with
    | some (.ai _ tcs) => tcs
    | _ => []
  { s with messages := calls.map (fun tc => Message.toolResult (runTool tc)) }

/-- Result of one graph run: the final state, the number of agent-node and
tools-node executions, and the list of states observed after each node. -/
structure LoopResult where
  final : WritingState
  agentVisits : Nat
  toolVisits : Nat
  trace : List WritingState
deriving DecidableEq

/-- The compiled graph (agent.py lines 134-158): entry point `agent`;
after `agent` the conditional edge maps `continue` to `tools` and `end`
to END; `tools` loops back to `agent`.  The run is expressed with
explicit fuel; termination for sufficient fuel is proved below. -/
def runLoopFuel (gw : Gateway) : Nat → WritingState → Option LoopResult
  | 0, _ => none
  | fuel + 1, s =>
    let s1 := agent_node gw s
    if should_continue s1 = "continue" then
      let s2 := tools_node s1
      match runLoopFuel gw fuel s2 with
      | none => none
      | some r => some ⟨r.final, r.agentVisits + 1, r.toolVisits + 1, s1 :: s2 :: r.trace⟩
    else some ⟨s1, 1, 0, [s1]⟩

/-- The initial state built by `WritingAgent.generate_text`
(agent.py lines 319-326). -/
def initialGenerateState (prompt : String) (ctx : List (String × String)) : WritingState :=
  ⟨[], prompt, ctx, "generate", 0, 3⟩

/-! ## Streaming (agent.py generate_text / edit_text / improve_text,
main.py create_sse_stream) -/

/-- The fragments streamed from one assistant content string
(agent.py lines 334-339): nothing if the content is falsy, otherwise each
`str.split()` token with one trailing space appended. -/
def contentFragments (content : String) : List String :=
  if content = "" then [] else (pySplitWs content).map (fun w => w ++ " ")

/-- The fragments produced from one `astream` output item
(agent.py lines 330-339): only items of the `agent` node whose last
message is an assistant message contribute. -/
def nodeFragments (nodeName : String) (msgs : List Message) : List String :=
  if nodeName = "agent" then
    match msgs.getLast? with
    | some (.ai c _) => contentFragments c
    | _ => []
  else []

/-- One run of the `generate_text` async generator (agent.py lines
313-344), as a function of the `astream` outputs consumed before an
optional exception: the word fragments of each output in order, followed
— when the graph iteration raised — by the single error fragment yielded
by the catch-all handler.  The generator itself never lets the exception
escape. -/
def generate_text_run (outputs : List (String × List Message)) (exn : Option String) :
    List String :=
  (outputs.map (fun p => nodeFragments p.1 p.2)).flatten ++
    (match exn with
     | none => []
     | some e => ["Error generating text: " ++ e])

/-- A wire event of `create_sse_stream` (main.py lines 88-104), one per
`data:` line; the constructor records the JSON `type` tag family and the
payload. -/
inductive SSEEvent where
  | start (message : String)
  | chunk (content : String)
  | complete (message : String)
  | error (message : String)
deriving DecidableEq

/-- Worker for Python `str.title()` (ASCII): the first letter of each
alphabetic run is uppercased, the rest lowercased. -/
def pyTitleAux : List Char → Bool → List Char
  | [], _ => []
  | c :: cs, prevAlpha =>
    if c.isAlpha then
      (if prevAlpha then c.toLower else c.toUpper) :: pyTitleAux cs true
    else c :: pyTitleAux cs false

/-- Python `action_type.title()`. -/
def pyTitle (s : String) : String := String.mk (pyTitleAux s.toList false)

/-- The single terminal event of `create_sse_stream`: the completion
event of the success path (main.py line 100) or the error event of the
except branch (main.py line 104). -/
def terminalOf (action_type : String) : Option String → SSEEvent
  | none => SSEEvent.complete (pyTitle action_type ++ " completed")
  | some e => SSEEvent.error (pyTitle action_type ++ " failed: " ++ e)

/-- `create_sse_stream` (main.py lines 88-104) as a function of the
fragments the generator yielded (`produced`) and the exception that
escaped the generator, if any (`escaped`): one start event, one chunk
event per truthy fragment in order, then exactly one terminal event —
`complete` when the generator was exhausted, `error` when it raised. -/
def create_sse_stream (action_type : String) (produced : List String)
    (escaped : Option String) : List SSEEvent :=
  SSEEvent.start ("Starting " ++ action_type ++ "...") ::
    ((produced.filter (fun c => c != "")).map SSEEvent.chunk ++
      [terminalOf action_type escaped])

/-- The full event stream of one `/api/generate` request
(main.py lines 106-122): `generate_text` converts any exception into a
final ordinary fragment, so nothing ever escapes the generator and the
framing layer's `escaped` input is `none` on this path. -/
def generationStream (outputs : List (String × List Message)) (exn : Option String) :
    List SSEEvent :=
  create_sse_stream "generation" (generate_text_run outputs exn) none

/-- The contents of the chunk events of a stream, in order. -/
def chunkContents (evs : List SSEEvent) : List String :=
  evs.filterMap (fun e => match e with | .chunk c => some c | _ => none)

/-- Terminal events (`complete` or `error`). -/
def isTerminalEvent : SSEEvent → Bool
  | .complete _ => true
  | .error _ => true
  | _ => false

/-- Error events. -/
def isErrorEvent : SSEEvent → Bool
  | .error _ => true
  | _ => false

/-- Chunk events. -/
def isChunkEvent : SSEEvent → Bool
  | .chunk _ => true
  | _ => false

/-- The fragment shape claimed for generator output: a non-empty token
without whitespace followed by exactly one trailing space. -/
def isTokenFragment (f : String) : Bool :=
  match f.toList.reverse with
  | [] => false
  | c :: rest => c = ' ' && !rest.isEmpty && rest.all (fun d => !isPySpace d)

/-- A gateway that always answers with a tool-call request, used to
witness the exact-cycle-count theorem. -/
def alwaysToolGateway : Gateway :=
  fun _ => ModelResult.success "Using a tool." [⟨"extract_key_themes", [("text", "hi")]⟩]

example : pyTitle "generation" = "Generation" := by decide
example : contentFragments "Hello world" = ["Hello ", "world "] := by decide
example : isTokenFragment "Hello " = true := by decide
example : isTokenFragment "Error generating text: x" = false := by decide
example :
    generationStream [] (some "boom") =
      [SSEEvent.start "Starting generation...",
       SSEEvent.chunk "Error generating text: boom",
       SSEEvent.complete "Generation completed"] := by decide

/-! ## Lemmas about the agent loop -/

lemma agent_node_iterations (gw : Gateway) (s : WritingState) :
    (agent_node gw s).iterations = s.iterations + 1 := rfl

lemma agent_node_max (gw : Gateway) (s : WritingState) :
    (agent_node gw s).max_iterations = s.max_iterations := rfl

lemma tools_node_iterations (s : WritingState) :
    (tools_node s).iterations = s.iterations := rfl

lemma tools_node_max (s : WritingState) :
    (tools_node s).max_iterations = s.max_iterations := rfl

lemma should_continue_lt (s : WritingState) (h : should_continue s = "continue") :
    s.iterations < s.max_iterations := by
  unfold should_continue at h
  by_cases hge : s.iterations ≥ s.max_iterations
  · rw [if_pos hge] at h
    exact absurd h (by decide)
  · omega

/-- Totality and bounds of the loop: with fuel covering the remaining
iteration budget the run completes, performs one more agent visit than
tool visits, at most `max_iterations - iterations` agent visits, and the
iteration counter stays within the bound in every traversed state. -/
lemma runLoopFuel_total (gw : Gateway) : ∀ (fuel : Nat) (s : WritingState),
    s.iterations < s.max_iterations →
    s.max_iterations - s.iterations ≤ fuel →
    ∃ r : LoopResult, runLoopFuel gw fuel s = some r ∧
      r.agentVisits = r.toolVisits + 1 ∧
      r.agentVisits ≤ s.max_iterations - s.iterations ∧
      r.final.iterations ≤ s.max_iterations ∧
      ∀ t ∈ r.trace, t.iterations ≤ t.max_iterations ∧
        t.max_iterations = s.max_iterations := by
  intro fuel
  induction fuel with
  | zero => intro s hlt hfuel; omega
  | succ fuel ih =>
    intro s hlt hfuel
    by_cases hc : should_continue (agent_node gw s) = "continue"
    · have hlt1 := should_continue_lt _ hc
      rw [agent_node_iterations, agent_node_max] at hlt1
      obtain ⟨r, hr, hat, hbound, hfin, htrace⟩ :=
        ih (tools_node (agent_node gw s))
          (by rw [tools_node_iterations, tools_node_max,
                  agent_node_iterations, agent_node_max]; omega)
          (by rw [tools_node_iterations, tools_node_max,
                  agent_node_iterations, agent_node_max]; omega)
      simp only [tools_node_iterations, tools_node_max, agent_node_iterations,
        agent_node_max] at hbound hfin htrace
      refine ⟨⟨r.final, r.agentVisits + 1, r.toolVisits + 1,
               agent_node gw s :: tools_node (agent_node gw s) :: r.trace⟩,
             ?_, ?_, ?_, ?_, ?_⟩
      · simp only [runLoopFuel]
        rw [if_pos hc, hr]
      · show r.agentVisits + 1 = (r.toolVisits + 1) + 1
        omega
      · show r.agentVisits + 1 ≤ s.max_iterations - s.iterations
        omega
      · show r.final.iterations ≤ s.max_iterations
        omega
      · show ∀ t ∈ agent_node gw s :: tools_node (agent_node gw s) :: r.trace,
          t.iterations ≤ t.max_iterations ∧ t.max_iterations = s.max_iterations
        intro t ht
        simp only [List.mem_cons] at ht
        rcases ht with rfl | rfl | ht
        · rw [agent_node_iterations, agent_node_max]
          exact ⟨by omega, rfl⟩
        · rw [tools_node_iterations, tools_node_max,
              agent_node_iterations, agent_node_max]
          exact ⟨by omega, rfl⟩
        · exact htrace t ht
    · refine ⟨⟨agent_node gw s, 1, 0, [agent_node gw s]⟩, ?_, ?_, ?_, ?_, ?_⟩
      · simp only [runLoopFuel]
        rw [if_neg hc]
      · show (1 : Nat) = 0 + 1
        rfl
      · show (1 : Nat) ≤ s.max_iterations - s.iterations
        omega
      · show (agent_node gw s).iterations ≤ s.max_iterations
        rw [agent_node_iterations]; omega
      · show ∀ t ∈ [agent_node gw s],
          t.iterations ≤ t.max_iterations ∧ t.max_iterations = s.max_iterations
        intro t ht
        rw [List.mem_singleton] at ht
        subst ht
        rw [agent_node_iterations, agent_node_max]
        exact ⟨by omega, rfl⟩

/-- Exact cycle counts when every model answer requests tools: the run
ends by exhausting the iteration budget, with `max - iterations` agent
visits and one fewer tool visit. -/
lemma runLoopFuel_always_tools (gw : Gateway)
    (htools : ∀ msgs, ∃ c tcs, gw msgs = ModelResult.success c tcs ∧ tcs ≠ []) :
    ∀ (fuel : Nat) (s : WritingState),
    s.iterations < s.max_iterations →
    s.max_iterations - s.iterations ≤ fuel →
    ∃ r : LoopResult, runLoopFuel gw fuel s = some r ∧
      r.agentVisits = s.max_iterations - s.iterations ∧
      r.toolVisits = s.max_iterations - s.iterations - 1 := by
  intro fuel
  induction fuel with
  | zero => intro s hlt hfuel; omega
  | succ fuel ih =>
    intro s hlt hfuel
    obtain ⟨c, tcs, hgw, htc⟩ := htools (seedMessages s)
    have hmsg : (agent_node gw s).messages = seedMessages s ++ [Message.ai c tcs] := by
      simp only [agent_node, hgw, respondedMessage]
    have hlast : lastHasToolCalls (agent_node gw s).messages = true := by
      rw [hmsg]
      simp only [lastHasToolCalls, List.getLast?_concat]
      simpa using htc
    by_cases hend : s.iterations + 1 ≥ s.max_iterations
    · have hsc : should_continue (agent_node gw s) = "end" := by
        unfold should_continue
        rw [if_pos]
        exact hend
      refine ⟨⟨agent_node gw s, 1, 0, [agent_node gw s]⟩, ?_, ?_, ?_⟩
      · simp only [runLoopFuel]
        rw [if_neg]
        rw [hsc]
        decide
      · show (1 : Nat) = s.max_iterations - s.iterations
        omega
      · show (0 : Nat) = s.max_iterations - s.iterations - 1
        omega
    · have hsc : should_continue (agent_node gw s) = "continue" := by
        unfold should_continue
        have hnot : ¬ (agent_node gw s).iterations ≥ (agent_node gw s).max_iterations := by
          rw [agent_node_iterations, agent_node_max]; omega
        rw [if_neg hnot, if_pos hlast]
      obtain ⟨r, hr, ha, ht⟩ :=
        ih (tools_node (agent_node gw s))
          (by rw [tools_node_iterations, tools_node_max,
                  agent_node_iterations, agent_node_max]; omega)
          (by rw [tools_node_iterations, tools_node_max,
                  agent_node_iterations, agent_node_max]; omega)
      simp only [tools_node_iterations, tools_node_max, agent_node_iterations,
        agent_node_max] at ha ht
      refine ⟨⟨r.final, r.agentVisits + 1, r.toolVisits + 1,
               agent_node gw s :: tools_node (agent_node gw s) :: r.trace⟩, ?_, ?_, ?_⟩
      · simp only [runLoopFuel]
        rw [if_pos hsc, hr]
      · show r.agentVisits + 1 = s.max_iterations - s.iterations
        omega
      · show r.toolVisits + 1 = s.max_iterations - s.iterations - 1
        omega

/-! ## Claim theorems for the agent loop -/

/-- C1: for every initial state with `iterations = 0` and
`max_iterations = N ≥ 1`, the agent loop reaches END (the run completes
with fuel N), executes the agent node at most N times — whatever the
model gateway answers, tool calls, plain answers or raised exceptions —
and the iterations counter never exceeds `max_iterations` in any state
reached during the run. -/
theorem agent_loop_bounded (gw : Gateway) (N : Nat) (s0 : WritingState)
    (hit : s0.iterations = 0) (hmax : s0.max_iterations = N) (hN : 1 ≤ N) :
    ∃ r : LoopResult, runLoopFuel gw N s0 = some r ∧
      r.agentVisits ≤ N ∧
      r.final.iterations ≤ N ∧
      ∀ t ∈ r.trace, t.iterations ≤ t.max_iterations := by
  obtain ⟨r, hr, _, hbound, hfin, htrace⟩ :=
    runLoopFuel_total gw N s0 (by omega) (by omega)
  exact ⟨r, hr, by omega, by omega, fun t ht => (htrace t ht).1⟩

/-- Witness for C1 at a concrete gateway and initial state. -/
theorem agent_loop_bounded_witness :
    ∃ r : LoopResult,
      runLoopFuel (mockGateway "generate") 3 (initialGenerateState "hi" []) = some r ∧
      r.agentVisits ≤ 3 ∧
      r.final.iterations ≤ 3 ∧
      ∀ t ∈ r.trace, t.iterations ≤ t.max_iterations :=
  agent_loop_bounded (mockGateway "generate") 3 (initialGenerateState "hi" [])
    rfl rfl (by decide)

/-- C4: if every model answer carries at least one non-empty tool call,
a loop started with `iterations = 0` and `max_iterations = N ≥ 1`
performs exactly N agent (Reasoning) cycles and exactly N − 1 tools
(Tooling) cycles before ending — in particular no tool dispatch follows
the final permitted Reasoning cycle. -/
theorem agent_loop_always_tools (gw : Gateway)
    (htools : ∀ msgs, ∃ c tcs, gw msgs = ModelResult.success c tcs ∧ tcs ≠ [])
    (N : Nat) (s0 : WritingState)
    (hit : s0.iterations = 0) (hmax : s0.max_iterations = N) (hN : 1 ≤ N) :
    ∃ r : LoopResult, runLoopFuel gw N s0 = some r ∧
      r.agentVisits = N ∧
      r.toolVisits = N - 1 := by
  obtain ⟨r, hr, ha, ht⟩ :=
    runLoopFuel_always_tools gw htools N s0 (by omega) (by omega)
  exact ⟨r, hr, by omega, by omega⟩

/-- Witness for C4: a gateway that always requests a tool call, run with
N = 2, performs 2 agent cycles and 1 tools cycle. -/
theorem agent_loop_always_tools_witness :
    ∃ r : LoopResult,
      runLoopFuel alwaysToolGateway 2 ⟨[], "x", [], "generate", 0, 2⟩ = some r ∧
      r.agentVisits = 2 ∧
      r.toolVisits = 1 :=
  agent_loop_always_tools alwaysToolGateway
    (fun _ => ⟨"Using a tool.", [⟨"extract_key_themes", [("text", "hi")]⟩],
      rfl, by decide⟩)
    2 ⟨[], "x", [], "generate", 0, 2⟩ rfl rfl (by decide)

/-- C5: every visit to the agent node increments the iterations counter
by exactly one, whether the model call succeeds or raises; on a raise it
appends the synthetic assistant entry carrying the human-readable error
text instead of propagating, so the node returns a normal state (the
totality of `agent_node` in both branches of the gateway outcome). -/
theorem agent_node_spec (gw : Gateway) (s : WritingState) :
    (agent_node gw s).iterations = s.iterations + 1 ∧
    (match gw (seedMessages s) with
      | .success c tcs =>
          (agent_node gw s).messages = seedMessages s ++ [Message.ai c tcs]
      | .failure e =>
          (agent_node gw s).messages =
            seedMessages s ++ [Message.ai ("I encountered an error: " ++ e) []]) := by
  refine ⟨rfl, ?_⟩
  cases h : gw (seedMessages s) with
  | success c tcs => simp only [agent_node, respondedMessage, h]
  | failure e => simp only [agent_node, respondedMessage, h]

/-! ## Lemmas about the theme-extraction sort -/

lemma mem_bumpFreq (w : String) (p : String × Nat) :
    ∀ l, p ∈ bumpFreq l w → p.1 = w ∨ p ∈ l := by
  intro l
  induction l with
  | nil =>
    intro h
    simp only [bumpFreq, List.mem_singleton] at h
    left; rw [h]
  | cons kv rest ih =>
    obtain ⟨k, v⟩ := kv
    intro h
    simp only [bumpFreq] at h
    by_cases hk : k = w
    · rw [if_pos hk] at h
      rcases List.mem_cons.mp h with h1 | h1
      · left; rw [h1]; exact hk
      · right; exact List.mem_cons_of_mem _ h1
    · rw [if_neg hk] at h
      rcases List.mem_cons.mp h with h1 | h1
      · right; exact List.mem_cons.mpr (Or.inl h1)
      · rcases ih h1 with h2 | h2
        · left; exact h2
        · right; exact List.mem_cons_of_mem _ h2

/-- Every key of the frequency dict is a kept word: longer than 3
characters and not a stop word. -/
lemma freq_fold_keys (ws : List String) :
    ∀ acc : List (String × Nat),
    (∀ p ∈ acc, 3 < p.1.length ∧ commonWords.contains p.1 = false) →
    ∀ p ∈ ws.foldl freqStep acc,
      3 < p.1.length ∧ commonWords.contains p.1 = false := by
  induction ws with
  | nil => intro acc hacc p hp; exact hacc p hp
  | cons w ws ih =>
    intro acc hacc p hp
    rw [List.foldl_cons] at hp
    refine ih (freqStep acc w) ?_ p hp
    intro q hq
    unfold freqStep at hq
    by_cases hcond :
        (3 < (cleanWord w).length && !(commonWords.contains (cleanWord w))) = true
    · rw [if_pos hcond] at hq
      rcases mem_bumpFreq _ _ _ hq with h1 | h1
      · simp only [Bool.and_eq_true, decide_eq_true_eq, Bool.not_eq_true'] at hcond
        rw [h1]
        exact hcond
      · exact hacc q h1
    · rw [if_neg hcond] at hq
      exact hacc q hq

lemma wordFreq_keys (text : String) :
    ∀ p ∈ wordFreq text, 3 < p.1.length ∧ commonWords.contains p.1 = false := by
  intro p hp
  exact freq_fold_keys _ [] (by intro q hq; cases hq) p hp

lemma perm_insertByCountDesc (x : String × Nat) :
    ∀ l, List.Perm (insertByCountDesc x l) (x :: l) := by
  intro l
  induction l with
  | nil => simp [insertByCountDesc]
  | cons y ys ih =>
    simp only [insertByCountDesc]
    by_cases hy : y.2 > x.2
    · rw [if_pos hy]
      exact (ih.cons y).trans (List.Perm.swap x y ys)
    · rw [if_neg hy]

lemma sortByCountDesc_perm (l : List (String × Nat)) :
    List.Perm (sortByCountDesc l) l := by
  induction l with
  | nil => rfl
  | cons a l ih =>
    have h : sortByCountDesc (a :: l) = insertByCountDesc a (sortByCountDesc l) := rfl
    rw [h]
    exact (perm_insertByCountDesc a (sortByCountDesc l)).trans (ih.cons a)

lemma mem_insertByCountDesc (x p : String × Nat) :
    ∀ l, p ∈ insertByCountDesc x l → p = x ∨ p ∈ l := by
  intro l hp
  rcases List.mem_cons.mp ((perm_insertByCountDesc x l).mem_iff.mp hp) with h | h
  · left; exact h
  · right; exact h

lemma pairwise_insertByCountDesc (x : String × Nat) :
    ∀ l, List.Pairwise (fun a b : String × Nat => b.2 ≤ a.2) l →
      List.Pairwise (fun a b : String × Nat => b.2 ≤ a.2) (insertByCountDesc x l) := by
  intro l
  induction l with
  | nil => intro _; simp [insertByCountDesc]
  | cons y ys ih =>
    intro hp
    rw [List.pairwise_cons] at hp
    obtain ⟨hy, hys⟩ := hp
    simp only [insertByCountDesc]
    by_cases hxy : y.2 > x.2
    · rw [if_pos hxy]
      rw [List.pairwise_cons]
      constructor
      · intro z hz
        rcases mem_insertByCountDesc x z ys hz with h | h
        · rw [h]; omega
        · exact hy z h
      · exact ih hys
    · rw [if_neg hxy]
      rw [List.pairwise_cons]
      constructor
      · intro z hz
        rcases List.mem_cons.mp hz with h | h
        · rw [h]; omega
        · have := hy z h; omega
      · rw [List.pairwise_cons]
        exact ⟨hy, hys⟩

lemma sortByCountDesc_pairwise (l : List (String × Nat)) :
    List.Pairwise (fun a b : String × Nat => b.2 ≤ a.2) (sortByCountDesc l) := by
  induction l with
  | nil => simp [sortByCountDesc]
  | cons a l ih => exact pairwise_insertByCountDesc a (sortByCountDesc l) ih

/-- Stability of the insertion step: among the entries of any given
count, the inserted entry comes first exactly when its count matches,
and the relative order of the others is untouched. -/
lemma filter_insertByCountDesc (x : String × Nat) (c : Nat) :
    ∀ l, (insertByCountDesc x l).filter (fun p => p.2 == c) =
      if x.2 == c then x :: l.filter (fun p => p.2 == c)
      else l.filter (fun p => p.2 == c) := by
  intro l
  induction l with
  | nil =>
    by_cases hxc : (x.2 == c) = true
    · simp [insertByCountDesc, List.filter, hxc]
    · simp [insertByCountDesc, List.filter, hxc]
  | cons y ys ih =>
    simp only [insertByCountDesc]
    by_cases hxy : y.2 > x.2
    · rw [if_pos hxy]
      by_cases hxc : (x.2 == c) = true
      · have hyc : (y.2 == c) = false := by
          rw [beq_eq_false_iff_ne]
          rw [beq_iff_eq] at hxc
          omega
        simp [List.filter_cons, hyc, ih, hxc]
      · simp [List.filter_cons, ih, hxc]
    · rw [if_neg hxy]
      by_cases hxc : (x.2 == c) = true
      · simp [List.filter_cons, hxc]
      · simp [List.filter_cons, hxc]

/-- Stability of the sort: restricted to the entries of any single
count, the sorted list equals the original (first-occurrence) order. -/
lemma sortByCountDesc_stable (c : Nat) (l : List (String × Nat)) :
    (sortByCountDesc l).filter (fun p => p.2 == c) =
      l.filter (fun p => p.2 == c) := by
  induction l with
  | nil => rfl
  | cons a l ih =>
    have h : sortByCountDesc (a :: l) = insertByCountDesc a (sortByCountDesc l) := rfl
    rw [h, filter_insertByCountDesc, List.filter_cons]
    by_cases hac : (a.2 == c) = true
    · rw [if_pos hac, ih]
      simp [hac]
    · rw [if_neg hac, ih]
      simp [hac]

/-! ## Claim theorems for the analysis tools -/

/-- C8: `extract_key_themes` lower-cases and whitespace-tokenizes the
text, strips non-alphanumeric characters per token, discards tokens of
length ≤ 3 and stop words, and reports the top 5 remaining tokens by
descending frequency, ties broken by first-occurrence order (the sort
restricted to any one count equals the insertion-ordered dict); empty or
whitespace-only input yields the fixed no-themes notice, and for
"alpha alpha beta" the token "alpha" is ranked above "beta". -/
theorem extract_key_themes_spec (text : String) (h : textAllWhitespace text = false) :
    extract_key_themes "" = "No themes found in empty text" ∧
    (∀ t, textAllWhitespace t = true →
      extract_key_themes t = "No themes found in empty text") ∧
    extract_key_themes text =
      "Key themes identified: " ++ pyReprStrList ((topThemes text).map Prod.fst) ∧
    (topThemes text).length ≤ 5 ∧
    List.Pairwise (fun a b : String × Nat => b.2 ≤ a.2) (topThemes text) ∧
    (∀ c, (sortByCountDesc (wordFreq text)).filter (fun p => p.2 == c) =
      (wordFreq text).filter (fun p => p.2 == c)) ∧
    (topThemes text).all
      (fun p => decide (3 < p.1.length) && !(commonWords.contains p.1)) = true ∧
    (topThemes "alpha alpha beta").map Prod.fst = ["alpha", "beta"] ∧
    extract_key_themes "alpha alpha beta" =
      "Key themes identified: " ++ pyReprStrList ["alpha", "beta"] := by
  refine ⟨by decide, ?_, ?_, ?_, ?_, ?_, ?_, by decide, by decide⟩
  · intro t ht
    simp [extract_key_themes, ht]
  · simp [extract_key_themes, h]
  · exact List.length_take_le 5 _
  · exact List.Pairwise.sublist (List.take_sublist _ _) (sortByCountDesc_pairwise _)
  · intro c
    exact sortByCountDesc_stable c _
  · rw [List.all_eq_true]
    intro p hp
    simp only [topThemes] at hp
    have hmem : p ∈ wordFreq text :=
      (sortByCountDesc_perm _).mem_iff.mp (List.mem_of_mem_take hp)
    obtain ⟨h1, h2⟩ := wordFreq_keys text p hmem
    simp only [Bool.and_eq_true, decide_eq_true_eq, Bool.not_eq_true']
    exact ⟨h1, h2⟩

/-- Witness for C8 at the concrete input of the claim. -/
theorem extract_key_themes_spec_witness :
    textAllWhitespace "alpha alpha beta" = false ∧
    extract_key_themes "alpha alpha beta" =
      "Key themes identified: " ++ pyReprStrList ["alpha", "beta"] :=
  ⟨by decide,
   (extract_key_themes_spec "alpha alpha beta" (by decide)).2.2.2.2.2.2.2.2⟩

/-- C9: `analyze_text_structure` returns the fixed empty-text notice on
empty or whitespace-only input and otherwise reports word count
(whitespace tokens), character count, line count (newline-delimited),
paragraph count (double-newline-delimited non-blank blocks) and the
classification, which is "multi-paragraph" exactly when more than one
paragraph was found; for "a\n\nb" it reports 2 paragraphs and
"multi-paragraph". -/
theorem analyze_text_structure_spec (text : String)
    (h : textAllWhitespace text = false) :
    analyze_text_structure "" = "Empty text provided" ∧
    (∀ t, textAllWhitespace t = true →
      analyze_text_structure t = "Empty text provided") ∧
    analyze_text_structure text =
      "Text Analysis: " ++
        jsonAnalysis (pySplitWs text).length text.length (pySplitNL text).length
          (paragraphsOf text).length
          (if 1 < (paragraphsOf text).length then "multi-paragraph"
           else "single-block") ∧
    (∀ n : Nat,
      ((if 1 < n then "multi-paragraph" else "single-block") = "multi-paragraph")
        ↔ 1 < n) ∧
    (paragraphsOf "a\n\nb").length = 2 ∧
    analyze_text_structure "a\n\nb" =
      "Text Analysis: " ++ jsonAnalysis 2 4 3 2 "multi-paragraph" := by
  refine ⟨by decide, ?_, ?_, ?_, by decide, by decide⟩
  · intro t ht
    simp [analyze_text_structure, ht]
  · simp [analyze_text_structure, h]
  · intro n
    by_cases hn : 1 < n
    · rw [if_pos hn]
      exact ⟨fun _ => hn, fun _ => rfl⟩
    · rw [if_neg hn]
      constructor
      · intro hcontra
        exact absurd hcontra (by decide)
      · intro h1n
        exact absurd h1n hn

/-- Witness for C9 at the concrete input of the claim. -/
theorem analyze_text_structure_spec_witness :
    textAllWhitespace "a\n\nb" = false ∧
    analyze_text_structure "a\n\nb" =
      "Text Analysis: " ++ jsonAnalysis 2 4 3 2 "multi-paragraph" :=
  ⟨by decide, (analyze_text_structure_spec "a\n\nb" (by decide)).2.2.2.2.2⟩

/-! ## Claim theorems for the Start-step templates -/

set_option maxRecDepth 8192 in
/-- C6 counterexample: for the unknown action "summarize" the system
prompt is the generate one, but the initial user message is built by the
improve template, not the generate template, because the source branch
chain tests only "generate" and "edit" and sends every other action into
the improve else branch. -/
theorem unknown_action_template_counterexample :
    systemPromptFor "summarize" = systemPromptFor "generate" ∧
    initialUserMessage "summarize" "x" [] = "Please help me improve this text:\n\nx" ∧
    initialUserMessage "generate" "x" [] =
      "Please help me generate text based on this prompt: x" ∧
    ¬ initialUserMessage "summarize" "x" [] = initialUserMessage "generate" "x" [] := by
  decide

/-- C6 (amended): for every action outside (generate, edit, improve) the
Start step uses the generate system prompt but builds the initial user
message with the improve template. -/
theorem unknown_action_template (action content : String)
    (ctx : List (String × String))
    (h1 : action ≠ "generate") (h2 : action ≠ "edit") (h3 : action ≠ "improve") :
    systemPromptFor action = generateSystemPrompt ∧
    initialUserMessage action content ctx = initialUserMessage "improve" content ctx := by
  constructor
  · have e1 : (action == "generate") = false := beq_eq_false_iff_ne.mpr h1
    have e2 : (action == "edit") = false := beq_eq_false_iff_ne.mpr h2
    have e3 : (action == "improve") = false := beq_eq_false_iff_ne.mpr h3
    simp [systemPromptFor, system_prompts, List.lookup, e1, e2, e3]
  · simp only [initialUserMessage]
    rw [if_neg h1, if_neg h2,
        if_neg (by decide : ¬ ("improve" : String) = "generate"),
        if_neg (by decide : ¬ ("improve" : String) = "edit")]

/-- Witness for the amended C6 at the concrete action "summarize". -/
theorem unknown_action_template_witness :
    systemPromptFor "summarize" = generateSystemPrompt ∧
    initialUserMessage "summarize" "x" [] = initialUserMessage "improve" "x" [] :=
  unknown_action_template "summarize" "x" [] (by decide) (by decide) (by decide)

/-! ## String-join lemmas for the streaming adapter -/

lemma string_foldl_append (l : List String) : ∀ a : String,
    l.foldl (fun r s => r ++ s) a = a ++ l.foldl (fun r s => r ++ s) "" := by
  induction l with
  | nil =>
    intro a
    rw [List.foldl_nil, List.foldl_nil, String.append_empty]
  | cons b l ih =>
    intro a
    rw [List.foldl_cons, List.foldl_cons, ih (a ++ b), ih ("" ++ b),
        String.empty_append, String.append_assoc]

lemma string_join_cons (a : String) (l : List String) :
    String.join (a :: l) = a ++ String.join l := by
  show (a :: l).foldl (fun r s => r ++ s) "" = a ++ l.foldl (fun r s => r ++ s) ""
  rw [List.foldl_cons, string_foldl_append, String.empty_append]

/-- The claim-side rendering of "the tokens joined by single spaces",
compared against the code-side fragment concatenation. -/
def joinedWithSingleSpaces : List String → String
  | [] => ""
  | [w] => w
  | w :: ws => w ++ " " ++ joinedWithSingleSpaces ws

lemma join_map_space (l : List String) (h : l ≠ []) :
    String.join (l.map (fun w => w ++ " ")) = joinedWithSingleSpaces l ++ " " := by
  induction l with
  | nil => exact absurd rfl h
  | cons w ws ih =>
    cases ws with
    | nil =>
      rw [List.map_cons, List.map_nil, string_join_cons]
      show (w ++ " ") ++ String.join [] = w ++ " "
      rw [show String.join [] = "" from rfl, String.append_empty]
    | cons v vs =>
      rw [List.map_cons, string_join_cons, ih (by simp)]
      show (w ++ " ") ++ (joinedWithSingleSpaces (v :: vs) ++ " ") =
        (w ++ " " ++ joinedWithSingleSpaces (v :: vs)) ++ " "
      simp [String.append_assoc]

/-- C7: for non-empty assistant text the streaming adapter yields exactly
the whitespace-delimited tokens in order, each with a single trailing
space appended, so the concatenation of all fragments is the tokens
joined by single spaces plus one trailing space (when there is at least
one token); in particular "Hello world" yields ["Hello ", "world "]. -/
theorem streaming_fragments_spec (content : String) (h : content ≠ "") :
    contentFragments content = (pySplitWs content).map (fun w => w ++ " ") ∧
    (pySplitWs content ≠ [] →
      String.join (contentFragments content) =
        joinedWithSingleSpaces (pySplitWs content) ++ " ") ∧
    contentFragments "Hello world" = ["Hello ", "world "] := by
  refine ⟨?_, ?_, by decide⟩
  · simp [contentFragments, h]
  · intro hne
    simp only [contentFragments]
    rw [if_neg h]
    exact join_map_space _ hne

/-- Witness for C7 at the concrete content of the claim. -/
theorem streaming_fragments_spec_witness :
    ("Hello world" : String) ≠ "" ∧
    contentFragments "Hello world" = ["Hello ", "world "] :=
  ⟨by decide, (streaming_fragments_spec "Hello world" (by decide)).2.2⟩

/-! ## Lemmas about the SSE framing -/

lemma chunkContents_map_chunk (l : List String) :
    chunkContents (l.map SSEEvent.chunk) = l := by
  induction l with
  | nil => rfl
  | cons a l ih =>
    simp only [List.map_cons, chunkContents, List.filterMap_cons] at ih ⊢
    rw [ih]

lemma filter_terminal_map_chunk (l : List String) :
    (l.map SSEEvent.chunk).filter isTerminalEvent = [] := by
  induction l with
  | nil => rfl
  | cons a l ih =>
    simp only [List.map_cons, List.filter_cons, isTerminalEvent]
    exact ih

lemma filter_error_map_chunk (l : List String) :
    (l.map SSEEvent.chunk).filter isErrorEvent = [] := by
  induction l with
  | nil => rfl
  | cons a l ih =>
    simp only [List.map_cons, List.filter_cons, isErrorEvent]
    exact ih

lemma isTerminalEvent_terminalOf (a : String) (escaped : Option String) :
    isTerminalEvent (terminalOf a escaped) = true := by
  cases escaped <;> rfl

lemma getLast?_create_sse_stream (a : String) (produced : List String)
    (escaped : Option String) :
    (create_sse_stream a produced escaped).getLast? = some (terminalOf a escaped) := by
  rw [create_sse_stream, ← List.cons_append, List.getLast?_concat]

lemma filter_terminal_create_sse_stream (a : String) (produced : List String)
    (escaped : Option String) :
    (create_sse_stream a produced escaped).filter isTerminalEvent =
      [terminalOf a escaped] := by
  cases escaped <;>
    simp [create_sse_stream, terminalOf, List.filter_cons, List.filter_append,
      filter_terminal_map_chunk, isTerminalEvent]

lemma filter_error_create_sse_stream_none (a : String) (produced : List String) :
    (create_sse_stream a produced none).filter isErrorEvent = [] := by
  rw [create_sse_stream, List.filter_cons]
  simp only [isErrorEvent, List.filter_append, filter_error_map_chunk,
    List.filter_cons, terminalOf, List.filter_nil]
  rfl

lemma chunkContents_create_sse_stream (a : String) (produced : List String)
    (escaped : Option String) :
    chunkContents (create_sse_stream a produced escaped) =
      produced.filter (fun c => c != "") := by
  have hstep : chunkContents (create_sse_stream a produced escaped) =
      chunkContents ((produced.filter (fun c => c != "")).map SSEEvent.chunk) ++
        chunkContents [terminalOf a escaped] := by
    rw [create_sse_stream]
    exact List.filterMap_append _ _ _
  have hterm : chunkContents [terminalOf a escaped] = [] := by
    cases escaped <;> rfl
  rw [hstep, chunkContents_map_chunk, hterm, List.append_nil]

/-! ## Lemmas about the generator fragments -/

lemma mk_reverse_word (acc : List Char) (hne : acc.isEmpty = false)
    (hacc : acc.all (fun c => !isPySpace c) = true) :
    String.mk acc.reverse ≠ "" ∧
    (String.mk acc.reverse).toList.all (fun c => !isPySpace c) = true := by
  constructor
  · intro hcon
    have hrev : acc.reverse = [] := congrArg String.data hcon
    have hnil : acc = [] := List.reverse_eq_nil_iff.mp hrev
    rw [hnil] at hne
    simp at hne
  · show acc.reverse.all (fun c => !isPySpace c) = true
    rw [List.all_reverse]
    exact hacc

lemma wordsAux_tokens : ∀ (cs acc : List Char),
    acc.all (fun c => !isPySpace c) = true →
    ∀ w ∈ wordsAux cs acc, w ≠ "" ∧ w.toList.all (fun c => !isPySpace c) = true := by
  intro cs
  induction cs with
  | nil =>
    intro acc hacc w hw
    simp only [wordsAux] at hw
    by_cases he : acc.isEmpty = true
    · rw [if_pos he] at hw
      cases hw
    · rw [if_neg he] at hw
      rw [List.mem_singleton] at hw
      subst hw
      exact mk_reverse_word acc (by simpa using he) hacc
  | cons c cs ih =>
    intro acc hacc w hw
    simp only [wordsAux] at hw
    by_cases hsp : isPySpace c = true
    · rw [if_pos hsp] at hw
      by_cases he : acc.isEmpty = true
      · rw [if_pos he] at hw
        exact ih [] rfl w hw
      · rw [if_neg he] at hw
        rcases List.mem_cons.mp hw with h1 | h1
        · subst h1
          exact mk_reverse_word acc (by simpa using he) hacc
        · exact ih [] rfl w h1
    · rw [if_neg hsp] at hw
      refine ih (c :: acc) ?_ w hw
      rw [List.all_cons]
      simp only [Bool.not_eq_true] at hsp
      simp [hsp, hacc]

lemma pySplitWs_tokens (s : String) :
    ∀ w ∈ pySplitWs s, w ≠ "" ∧ w.toList.all (fun c => !isPySpace c) = true :=
  wordsAux_tokens s.toList [] rfl

lemma isTokenFragment_append_space (w : String) (h1 : w ≠ "")
    (h2 : w.toList.all (fun c => !isPySpace c) = true) :
    isTokenFragment (w ++ " ") = true := by
  have hrev : (w ++ " ").toList.reverse = ' ' :: w.toList.reverse := by
    rw [show (w ++ " ").toList = w.toList ++ [' '] from String.data_append w " ",
        List.reverse_append]
    rfl
  have hwne : w.toList ≠ [] := fun hcon => h1 (String.ext hcon)
  have hrevne : w.toList.reverse ≠ [] := by
    rw [ne_eq, List.reverse_eq_nil_iff]
    exact hwne
  unfold isTokenFragment
  rw [hrev]
  simp [List.all_reverse]
  refine ⟨hwne, ?_⟩
  intro x hx
  have hx2 := List.all_eq_true.mp h2 x hx
  simpa using hx2

lemma isTokenFragment_ne_empty (f : String) (h : isTokenFragment f = true) :
    f ≠ "" := by
  intro hcon
  subst hcon
  exact absurd h (by decide)

lemma contentFragments_tokens (content : String) :
    ∀ f ∈ contentFragments content, isTokenFragment f = true := by
  intro f hf
  unfold contentFragments at hf
  by_cases h : content = ""
  · rw [if_pos h] at hf
    cases hf
  · rw [if_neg h] at hf
    rw [List.mem_map] at hf
    obtain ⟨w, hw, rfl⟩ := hf
    obtain ⟨h1, h2⟩ := pySplitWs_tokens content w hw
    exact isTokenFragment_append_space w h1 h2

lemma nodeFragments_tokens (n : String) (msgs : List Message) :
    ∀ f ∈ nodeFragments n msgs, isTokenFragment f = true := by
  intro f hf
  unfold nodeFragments at hf
  by_cases hn : n = "agent"
  · rw [if_pos hn] at hf
    cases hlast : msgs.getLast? with
    | none => rw [hlast] at hf; cases hf
    | some m =>
      rw [hlast] at hf
      cases m with
      | system c => cases hf
      | human c => cases hf
      | ai c tcs => exact contentFragments_tokens c f hf
      | toolResult c => cases hf
  · rw [if_neg hn] at hf
    cases hf

lemma generate_text_run_tokens (outputs : List (String × List Message)) :
    ∀ f ∈ generate_text_run outputs none, isTokenFragment f = true := by
  intro f hf
  unfold generate_text_run at hf
  simp only [List.append_nil] at hf
  rw [List.mem_flatten] at hf
  obtain ⟨l, hl, hfl⟩ := hf
  rw [List.mem_map] at hl
  obtain ⟨p, hp, rfl⟩ := hl
  exact nodeFragments_tokens p.1 p.2 f hfl

lemma err_fragment_ne_empty (e : String) : "Error generating text: " ++ e ≠ "" := by
  intro hcon
  have hlen := congrArg String.length hcon
  rw [String.length_append] at hlen
  have h23 : ("Error generating text: " : String).length = 23 := rfl
  have h0 : ("" : String).length = 0 := rfl
  omega

lemma generate_text_run_ne_empty (outputs : List (String × List Message))
    (exn : Option String) :
    ∀ f ∈ generate_text_run outputs exn, f ≠ "" := by
  intro f hf
  unfold generate_text_run at hf
  rw [List.mem_append] at hf
  rcases hf with hf | hf
  · rw [List.mem_flatten] at hf
    obtain ⟨l, hl, hfl⟩ := hf
    rw [List.mem_map] at hl
    obtain ⟨p, hp, rfl⟩ := hl
    exact isTokenFragment_ne_empty f (nodeFragments_tokens p.1 p.2 f hfl)
  · cases exn with
    | none => cases hf
    | some e =>
      rw [List.mem_singleton] at hf
      subst hf
      exact err_fragment_ne_empty e

lemma filter_truthy_of_ne_empty (l : List String) (h : ∀ f ∈ l, f ≠ "") :
    l.filter (fun c => c != "") = l :=
  List.filter_eq_self.mpr (fun f hf => bne_iff_ne.mpr (h f hf))

/-! ## Claim theorems for the event stream -/

/-- C2: for every request the stream starts with the start event, chunk
events appear exactly for the truthy fragments in generator order, and
there is exactly one terminal event, which is last — the complete event
when the generator was exhausted and the error event when an exception
escaped it, never both, with no event following it. -/
theorem sse_stream_protocol (a : String) (produced : List String)
    (escaped : Option String) :
    (create_sse_stream a produced escaped).head? =
      some (SSEEvent.start ("Starting " ++ a ++ "...")) ∧
    (create_sse_stream a produced escaped).getLast? = some (terminalOf a escaped) ∧
    (create_sse_stream a produced escaped).filter isTerminalEvent =
      [terminalOf a escaped] ∧
    isTerminalEvent (terminalOf a escaped) = true ∧
    chunkContents (create_sse_stream a produced escaped) =
      produced.filter (fun c => c != "") ∧
    terminalOf a none = SSEEvent.complete (pyTitle a ++ " completed") ∧
    ∀ e, terminalOf a (some e) = SSEEvent.error (pyTitle a ++ " failed: " ++ e) :=
  ⟨rfl, getLast?_create_sse_stream a produced escaped,
    filter_terminal_create_sse_stream a produced escaped,
    isTerminalEvent_terminalOf a escaped,
    chunkContents_create_sse_stream a produced escaped,
    rfl, fun _ => rfl⟩

/-- C3 counterexample: when the graph iteration raises before producing
anything ("boom"), the full generation stream is start, one chunk
carrying the error text, then complete — there is no error event and
there is a chunk event, contradicting the claimed start-then-error
shape. -/
theorem streaming_exception_counterexample :
    generationStream [] (some "boom") =
      [SSEEvent.start "Starting generation...",
       SSEEvent.chunk "Error generating text: boom",
       SSEEvent.complete "Generation completed"] ∧
    (generationStream [] (some "boom")).filter isErrorEvent = [] ∧
    (generationStream [] (some "boom")).filter isChunkEvent ≠ [] := by
  decide

/-- C3 (amended): an exception raised while composing the assistant
entry is caught inside the generator, which yields the text
"Error generating text: ..." as an ordinary final fragment; the stream
is start, the chunks of the fragments produced before the exception, one
chunk carrying the error text, then the complete event — no error event
is emitted on this path.  (A stream-level error event would require an
exception to escape the fragment generator itself, which its catch-all
prevents.) -/
theorem streaming_exception_amended (outputs : List (String × List Message))
    (e : String) :
    (generationStream outputs (some e)).filter isErrorEvent = [] ∧
    (generationStream outputs (some e)).getLast? =
      some (SSEEvent.complete "Generation completed") ∧
    chunkContents (generationStream outputs (some e)) =
      (outputs.map (fun p => nodeFragments p.1 p.2)).flatten ++
        ["Error generating text: " ++ e] ∧
    SSEEvent.chunk ("Error generating text: " ++ e) ∈
      generationStream outputs (some e) := by
  have hfrag : generate_text_run outputs (some e) =
      (outputs.map (fun p => nodeFragments p.1 p.2)).flatten ++
        ["Error generating text: " ++ e] := rfl
  have hfilter : (generate_text_run outputs (some e)).filter (fun c => c != "") =
      generate_text_run outputs (some e) :=
    filter_truthy_of_ne_empty _ (generate_text_run_ne_empty outputs (some e))
  refine ⟨?_, ?_, ?_, ?_⟩
  · exact filter_error_create_sse_stream_none "generation" _
  · rw [generationStream, getLast?_create_sse_stream]
    rfl
  · rw [generationStream, chunkContents_create_sse_stream, hfilter, hfrag]
  · rw [generationStream, create_sse_stream]
    refine List.mem_cons_of_mem _ ?_
    refine List.mem_append_left _ ?_
    rw [List.mem_map]
    refine ⟨"Error generating text: " ++ e, ?_, rfl⟩
    rw [hfilter, hfrag]
    exact List.mem_append_right _ (List.mem_singleton.mpr rfl)

/-- C10 counterexample: the generator can produce the fragment
"Error generating text: x" (the catch-all path), which is not a
whitespace-free token followed by one trailing space, refuting the
universally quantified fragment-shape part of the claim; the fragment is
nevertheless non-empty, so the wire part survives. -/
theorem fragment_shape_counterexample :
    generate_text_run [] (some "x") = ["Error generating text: x"] ∧
    isTokenFragment "Error generating text: x" = false ∧
    "Error generating text: x" ≠ "" := by
  decide

/-- C10 (amended): every chunk event on the wire carries non-empty
content — the framing layer skips falsy fragments, and every fragment
the generator yields is non-empty; on the exception-free path every
fragment is moreover a whitespace-free token with exactly one trailing
space, while the catch-all error fragment is non-empty but not of that
shape. -/
theorem wire_chunks_nonempty (a : String) (produced : List String)
    (escaped : Option String) (outputs : List (String × List Message))
    (exn : Option String) :
    (chunkContents (create_sse_stream a produced escaped)).all
      (fun c => c != "") = true ∧
    (generate_text_run outputs none).all isTokenFragment = true ∧
    (generate_text_run outputs exn).all (fun f => f != "") = true := by
  refine ⟨?_, ?_, ?_⟩
  · rw [chunkContents_create_sse_stream, List.all_eq_true]
    intro c hc
    exact (List.mem_filter.mp hc).2
  · rw [List.all_eq_true]
    exact generate_text_run_tokens outputs
  · rw [List.all_eq_true]
    intro f hf
    exact bne_iff_ne.mpr (generate_text_run_ne_empty outputs exn f hf)
